import Mathlib

/-!
# Verification of the cozy_gym_bot calendar-sync backend

Shallow embedding of the Python sources under `src/app/` (a FastAPI backend
for a Telegram gym bot that syncs Google Calendar events and notifies
clients).  Pure data is modelled by Lean structures mirroring the SQLAlchemy
models of `storage.py`; the stateful routines of `main.py` are modelled as
functions on an explicit database state, returning the new state together
with a trace of externally visible effects (commits, outbound HTTP calls).

Conventions of the embedding:
* Timestamps (`datetime` values) are `Int` seconds since the epoch, UTC.
  The Python code calls `datetime.now(timezone.utc)` several times within
  one run (microseconds apart); one run is modelled with a single instant
  `now`.
* `event["start"]["dateTime"]` is modelled as `Option Int`: `none` stands
  for an absent or empty string (Python's `if not start`), `some t` for a
  present ISO-8601 string parsing to instant `t`.
* Remote HTTP responses (the fetched event list, the token-refresh
  response) are inputs of the model, since the network is external.
* Telegram chat ids are `Int` throughout; the code stores `str(chat_id)`
  and converts back with `int(...)`, which is the identity on the ids it
  handles.
-/

namespace CozyGym

/-- Epoch time in seconds, UTC. -/
abbrev Time := Int

/-- The fields of `config.py` `Settings` used by the modelled routines. -/
structure Settings where
  telegram_bot_token : String
  telegram_webhook_secret : String
deriving DecidableEq, Repr

/-- `storage.py` `Client` (fields relevant to sync; `created_at` omitted). -/
structure Client where
  id : Nat
  trainer_id : Nat
  name : String
  telegram_chat_id : Int
deriving DecidableEq, Repr

/-- `storage.py` `TrainingSession` (the surrogate `id` column is omitted;
rows are identified positionally in the store list). -/
structure TrainingSession where
  trainer_id : Nat
  client_id : Option Nat
  calendar_event_id : String
  summary : String
  start_time : Time
  end_time : Time
  notified_at : Option Time
deriving DecidableEq, Repr

/-- `storage.py` `OAuthToken`. -/
structure OAuthToken where
  trainer_id : Nat
  access_token : String
  refresh_token : Option String
  token_type : String
  expires_at : Time
deriving DecidableEq, Repr

/-- `storage.py` `Trainer` (fields touched by the webhook handler). -/
structure Trainer where
  id : Nat
  name : Option String
  telegram_chat_id : Int
  sync_enabled : Bool
  sync_interval_minutes : Int
  last_synced_at : Option Time
deriving DecidableEq, Repr

/-- One item of the Google Calendar `events` response, as consumed by
`sync_calendar_for_trainer`: `event["id"]`, `event.get("summary")`, and the
(parsed) `start`/`end` `dateTime` fields. -/
structure GEvent where
  id : String
  summary : Option String
  startDateTime : Option Time
  endDateTime : Option Time
deriving DecidableEq, Repr

/-- Externally visible side effects of one run, in order of occurrence. -/
inductive Effect where
  /-- `await session.commit()` -/
  | commit : Effect
  /-- `refresh_access_token` POST to the OAuth token endpoint
  (`google_calendar.py`), carrying the stored refresh token. -/
  | refreshCall (refresh_token : Option String) : Effect
  /-- `fetch_calendar_events` GET (`google_calendar.py`), carrying the
  bearer access token used. -/
  | fetchEvents (access_token : String) : Effect
  /-- Outbound Telegram `sendMessage` POST (`telegram.py`). -/
  | telegramSend (chat_id : Int) (text : String) : Effect
deriving DecidableEq, Repr

/-- `telegram.py` `send_telegram_message`: performs no outbound call when
the bot token is empty, otherwise one `sendMessage` POST.  Returns the
outbound calls made. -/
def send_telegram_message (bot_token : String) (chat_id : Int)
    (text : String) : List Effect :=
  if bot_token = "" then [] else [Effect.telegramSend chat_id text]

/-- `needle` is a prefix of `hay` (character lists). -/
def leadEq : List Char → List Char → Bool
  | [], _ => true
  | _ :: _, [] => false
  | a :: tl, b :: bl => a == b && leadEq tl bl

/-- `needle` occurs inside `hay` (character lists). -/
def subIn (needle : List Char) : List Char → Bool
  | [] => leadEq needle []
  | b :: bl => leadEq needle (b :: bl) || subIn needle bl

/-- Python's `needle in hay` substring test on strings. -/
def strIn (needle hay : String) : Bool :=
  subIn needle.toList hay.toList

/-- `str.lower` on one character, for the ASCII range; characters outside
`A`-`Z` pass through unchanged. -/
def lowerChar (c : Char) : Char :=
  if 'A' ≤ c ∧ c ≤ 'Z' then Char.ofNat (c.toNat + 32) else c

/-- Python's `str.lower()` (ASCII case folding; both names and summaries
go through the same folding, as in the code). -/
def lowerStr (s : String) : String :=
  String.mk (s.data.map lowerChar)

/-- Decimal digits accumulator for `pyInt`. -/
def parseDigits : List Char → Nat → Option Nat
  | [], acc => some acc
  | c :: cs, acc =>
    if '0' ≤ c ∧ c ≤ '9' then
      parseDigits cs (acc * 10 + (c.toNat - '0'.toNat))
    else none

/-- Python's `int(s)` on a plain optionally-signed decimal token; `none`
models the `ValueError` branch.  (Exotic accepted forms — underscores,
non-ASCII digits — do not occur in whitespace-split command tokens and are
out of scope.) -/
def pyInt (s : String) : Option Int :=
  match s.data with
  | [] => none
  | '-' :: cs =>
    match cs with
    | [] => none
    | _ :: _ => (parseDigits cs 0).map (fun n => -(n : Int))
  | '+' :: cs =>
    match cs with
    | [] => none
    | _ :: _ => (parseDigits cs 0).map (fun n => (n : Int))
  | cs => (parseDigits cs 0).map (fun n => (n : Int))

/-- Python `dict` insertion: replace the value at an existing key in place
(keeping its position), else append the new pair. -/
def dictInsert (m : List (String × Client)) (k : String) (v : Client) :
    List (String × Client) :=
  if m.any (fun p => p.1 == k) then
    m.map (fun p => if p.1 == k then (k, v) else p)
  else m ++ [(k, v)]

/-- `main.py` line 67: `{client.name.lower(): client for client in clients}`,
as an association list in dict iteration (= insertion) order. -/
def buildClientMap (clients : List Client) : List (String × Client) :=
  clients.foldl (fun m c => dictInsert m (lowerStr c.name) c) []

/-- `main.py` lines 80-84: first pair of the client map whose key is
nonempty (`if name`) and a substring of the lowercased summary. -/
def matchClient : List (String × Client) → String → Option Client
  | [], _ => none
  | (name, c) :: rest, summary =>
    if name != "" && strIn name (lowerStr summary) then some c
    else matchClient rest summary

/-- First stored session with the given `calendar_event_id` (the
`select ... where calendar_event_id == ...` scalar of `main.py` line 86). -/
def findSession : List TrainingSession → String → Option TrainingSession
  | [], _ => none
  | s :: rest, eid =>
    if s.calendar_event_id = eid then some s else findSession rest eid

/-- Replace the first stored session with the given `calendar_event_id`
(in-place mutation of the selected ORM object). -/
def replaceSession : List TrainingSession → String → TrainingSession →
    List TrainingSession
  | [], _, _ => []
  | s :: rest, eid, s2 =>
    if s.calendar_event_id = eid then s2 :: rest
    else s :: replaceSession rest eid s2

/-- First stored token for the trainer (`main.py` line 48 scalar). -/
def findToken : List OAuthToken → Nat → Option OAuthToken
  | [], _ => none
  | t :: rest, tid =>
    if t.trainer_id = tid then some t else findToken rest tid

/-- Replace the first stored token for the trainer (in-place mutation of
the selected ORM object, `main.py` lines 60-61). -/
def replaceToken : List OAuthToken → Nat → OAuthToken → List OAuthToken
  | [], _, _ => []
  | t :: rest, tid, t2 =>
    if t.trainer_id = tid then t2 :: rest
    else t :: replaceToken rest tid t2

/-- Reminder text of `main.py` line 114; the `strftime("%d.%m %H:%M")`
rendering of the start instant is abstracted to its decimal timestamp. -/
def reminderText (start_dt : Time) (summary : String) : String :=
  "Напоминание: тренировка " ++ toString start_dt ++ " — " ++ summary

/-- The upserted session row of `main.py` lines 89-104: a fresh row when
no session with this event id is stored (`session.add`), else the selected
row with summary, time range overwritten and the client overwritten only
when one matched. -/
def upsertRecord (trainer_id : Nat) (matched_client : Option Client)
    (eid summary : String) (start_dt end_dt : Time)
    (existing : Option TrainingSession) : TrainingSession :=
  match existing with
  | none =>
    { trainer_id := trainer_id
      client_id := matched_client.map Client.id
      calendar_event_id := eid
      summary := summary
      start_time := start_dt
      end_time := end_dt
      notified_at := none }
  | some s =>
    { s with
      summary := summary
      start_time := start_dt
      end_time := end_dt
      client_id := match matched_client with
                   | some c => some c.id
                   | none => s.client_id }

/-- How the upserted row lands in the store: appended when it is new
(`session.add`), else replacing the selected row in place. -/
def storeSession (sessions : List TrainingSession)
    (existing : Option TrainingSession) (eid : String)
    (s2 : TrainingSession) : List TrainingSession :=
  match existing with
  | none => sessions ++ [s2]
  | some _ => replaceSession sessions eid s2

/-- One iteration of the event loop of `sync_calendar_for_trainer`
(`main.py` lines 71-116): skip events lacking a start or end dateTime,
match a client, upsert the session by `calendar_event_id`, and notify when
a client matched, no notification was sent yet, and the start lies in
`[now, now + 24h]`.  Returns the updated session store and the outbound
calls of this iteration. -/
def processEvent (settings : Settings) (trainer_id : Nat)
    (client_map : List (String × Client)) (now : Time)
    (sessions : List TrainingSession) (ev : GEvent) :
    List TrainingSession × List Effect :=
  match ev.startDateTime, ev.endDateTime with
  | some start_dt, some end_dt =>
    let summary := ev.summary.getD "Тренировка"
    let matched_client := matchClient client_map summary
    let existing := findSession sessions ev.id
    let session_obj :=
      upsertRecord trainer_id matched_client ev.id summary start_dt end_dt
        existing
    match matched_client with
    | some c =>
      if session_obj.notified_at = none ∧
          now ≤ start_dt ∧ start_dt ≤ now + 24 * 3600 then
        (storeSession sessions existing ev.id
           { session_obj with notified_at := some now },
         send_telegram_message settings.telegram_bot_token
           c.telegram_chat_id (reminderText start_dt summary))
      else (storeSession sessions existing ev.id session_obj, [])
    | none => (storeSession sessions existing ev.id session_obj, [])
  | _, _ => (sessions, [])

/-- The whole event loop, folded left over the fetched events. -/
def syncEvents (settings : Settings) (trainer_id : Nat)
    (client_map : List (String × Client)) (now : Time)
    (sessions : List TrainingSession) (events : List GEvent) :
    List TrainingSession × List Effect :=
  events.foldl
    (fun acc ev =>
      ((processEvent settings trainer_id client_map now acc.1 ev).1,
       acc.2 ++ (processEvent settings trainer_id client_map now acc.1 ev).2))
    (sessions, [])

/-- The persistent database state touched by one sync run. -/
structure SyncState where
  tokens : List OAuthToken
  clients : List Client
  sessions : List TrainingSession
deriving DecidableEq, Repr

/-- Body of the OAuth token-endpoint response consumed by the refresh
branch (`main.py` lines 60-61). -/
structure RefreshResponse where
  access_token : String
  expires_in : Int
deriving DecidableEq, Repr

/-- Result of one sync run: the `HTTPException` raised, or the number of
fetched events returned. -/
inductive SyncOutcome where
  | httpError (status : Nat) (detail : String) : SyncOutcome
  | ok (events : Nat) : SyncOutcome
deriving DecidableEq, Repr

/-- `main.py` lines 65-119, after the token has been loaded (and possibly
refreshed): fetch the events with the given access token, build the client
map, run the event loop, and commit.  `preEffects` are the effects of the
token-refresh branch that preceded the fetch. -/
def syncAfterToken (settings : Settings) (trainer_id : Nat)
    (st : SyncState) (now : Time) (remoteEvents : List GEvent)
    (access_token : String) (preEffects : List Effect) :
    SyncOutcome × SyncState × List Effect :=
  (.ok remoteEvents.length,
   { st with
     sessions :=
       (syncEvents settings trainer_id
         (buildClientMap
           (st.clients.filter (fun c => c.trainer_id == trainer_id)))
         now st.sessions remoteEvents).1 },
   preEffects ++ [.fetchEvents access_token] ++
     (syncEvents settings trainer_id
       (buildClientMap
         (st.clients.filter (fun c => c.trainer_id == trainer_id)))
       now st.sessions remoteEvents).2 ++ [.commit])

/-- The refreshed token row of `main.py` lines 60-61. -/
def refreshedToken (token : OAuthToken) (now : Time)
    (refreshResp : RefreshResponse) : OAuthToken :=
  { token with
    access_token := refreshResp.access_token
    expires_at := now + refreshResp.expires_in }

/-- `main.py` `sync_calendar_for_trainer` (lines 44-119).  The fetched
event list and the token-endpoint response are inputs (network is
external).  Returns the outcome, the new database state, and the ordered
effect trace of the run.  The token is refreshed (and that mutation
committed at once, line 62) exactly when it expires within one minute of
`now`. -/
def sync_calendar_for_trainer (settings : Settings) (trainer_id : Nat)
    (st : SyncState) (now : Time) (remoteEvents : List GEvent)
    (refreshResp : RefreshResponse) :
    SyncOutcome × SyncState × List Effect :=
  match findToken st.tokens trainer_id with
  | none => (.httpError 400 "Trainer has no Google token", st, [])
  | some token =>
    if token.expires_at ≤ now + 60 then
      syncAfterToken settings trainer_id
        { st with
          tokens := replaceToken st.tokens trainer_id
            (refreshedToken token now refreshResp) }
        now remoteEvents (refreshedToken token now refreshResp).access_token
        [.refreshCall token.refresh_token, .commit]
    else
      syncAfterToken settings trainer_id st now remoteEvents
        token.access_token []

/-- Number of outbound Telegram sends in a trace. -/
def sendCount (tr : List Effect) : Nat :=
  (tr.filter (fun e => match e with
    | Effect.telegramSend _ _ => true
    | _ => false)).length

/-- Number of commits in a trace. -/
def commitCount (tr : List Effect) : Nat :=
  (tr.filter (fun e => match e with
    | Effect.commit => true
    | _ => false)).length

/-- `main.py` line 184: the webhook secret check.  `true` when the request
is rejected with 404. -/
def webhook_secret_rejects (configured provided : String) : Bool :=
  configured == "" || provided != configured

/-- `main.py` lines 265-292: the `/sync <arg>` branch of the webhook
handler for a registered trainer (exactly two whitespace tokens in the
message).  Returns the updated trainer row; on an unparsable interval the
row is unchanged (an error message is sent instead). -/
def handleSyncArg (trainer : Trainer) (arg : String) : Trainer :=
  if lowerStr arg = "off" ∨ lowerStr arg = "disable" ∨ lowerStr arg = "stop"
  then
    { trainer with sync_enabled := false }
  else
    match pyInt arg with
    | none => trainer
    | some minutes =>
      { trainer with
        sync_interval_minutes := max minutes 1
        sync_enabled := true }

/-- Spec wording of step (6), for comparison with `matchClient`: first
client whose lowercased name is a substring of the lowercased summary
(no nonemptiness guard). -/
def specFirstMatch : List (String × Client) → String → Option Client
  | [], _ => none
  | (name, c) :: rest, summary =>
    if strIn name (lowerStr summary) then some c
    else specFirstMatch rest summary

/-- Number of stored sessions carrying a given `calendar_event_id`. -/
def countSessions (l : List TrainingSession) (eid : String) : Nat :=
  (l.filter (fun s => s.calendar_event_id == eid)).length

/-- `notified_at` of the stored session for an event id; `none` when no
session with that id is stored. -/
def storedNotified (sessions : List TrainingSession) (eid : String) :
    Option Time :=
  match findSession sessions eid with
  | some s => s.notified_at
  | none => none

/-! ## Store lemmas -/

theorem findSession_id {l : List TrainingSession} {eid : String}
    {s : TrainingSession} (h : findSession l eid = some s) :
    s.calendar_event_id = eid := by
  induction l with
  | nil => simp [findSession] at h
  | cons a tl ih =>
    simp only [findSession] at h
    by_cases hc : a.calendar_event_id = eid
    · rw [if_pos hc] at h; cases h; exact hc
    · rw [if_neg hc] at h; exact ih h

theorem findSession_append_some {l l2 : List TrainingSession} {eid : String}
    {s : TrainingSession} (h : findSession l eid = some s) :
    findSession (l ++ l2) eid = some s := by
  induction l with
  | nil => simp [findSession] at h
  | cons a tl ih =>
    simp only [findSession, List.cons_append] at h ⊢
    by_cases hc : a.calendar_event_id = eid
    · rw [if_pos hc] at h ⊢; exact h
    · rw [if_neg hc] at h ⊢; exact ih h

theorem findSession_append_none {l l2 : List TrainingSession} {eid : String}
    (h : findSession l eid = none) :
    findSession (l ++ l2) eid = findSession l2 eid := by
  induction l with
  | nil => simp
  | cons a tl ih =>
    simp only [findSession, List.cons_append] at h ⊢
    by_cases hc : a.calendar_event_id = eid
    · rw [if_pos hc] at h; cases h
    · rw [if_neg hc] at h ⊢; exact ih h

theorem findSession_replaceSession_same {l : List TrainingSession}
    {eid : String} {s s2 : TrainingSession}
    (h : findSession l eid = some s) (h2 : s2.calendar_event_id = eid) :
    findSession (replaceSession l eid s2) eid = some s2 := by
  induction l with
  | nil => simp [findSession] at h
  | cons a tl ih =>
    simp only [findSession, replaceSession] at h ⊢
    by_cases hc : a.calendar_event_id = eid
    · rw [if_pos hc]; simp [findSession, h2]
    · rw [if_neg hc] at h ⊢; simp only [findSession]
      rw [if_neg hc]; exact ih h

theorem findSession_replaceSession_other {l : List TrainingSession}
    {eid eid2 : String} {s2 : TrainingSession}
    (h2 : s2.calendar_event_id = eid) (hne : eid2 ≠ eid) :
    findSession (replaceSession l eid s2) eid2 = findSession l eid2 := by
  induction l with
  | nil => simp [replaceSession]
  | cons a tl ih =>
    simp only [findSession, replaceSession]
    by_cases hc : a.calendar_event_id = eid
    · rw [if_pos hc]
      simp only [findSession]
      rw [if_neg (by rw [h2]; exact fun hx => hne hx.symm),
        if_neg (by rw [hc]; exact fun hx => hne hx.symm)]
    · rw [if_neg hc]
      simp only [findSession]
      by_cases hd : a.calendar_event_id = eid2
      · rw [if_pos hd, if_pos hd]
      · rw [if_neg hd, if_neg hd]; exact ih

theorem length_replaceSession (l : List TrainingSession) (eid : String)
    (s2 : TrainingSession) :
    (replaceSession l eid s2).length = l.length := by
  induction l with
  | nil => rfl
  | cons a tl ih =>
    simp only [replaceSession]
    by_cases hc : a.calendar_event_id = eid
    · rw [if_pos hc]; simp
    · rw [if_neg hc]; simp [ih]

theorem countSessions_nil (eid : String) : countSessions [] eid = 0 := rfl

theorem countSessions_cons (a : TrainingSession) (l : List TrainingSession)
    (eid : String) :
    countSessions (a :: l) eid =
      (if a.calendar_event_id = eid then 1 else 0) + countSessions l eid := by
  simp only [countSessions, List.filter_cons]
  by_cases hc : a.calendar_event_id = eid
  · simp [hc, Nat.add_comm]
  · simp [hc]

theorem countSessions_append (l l2 : List TrainingSession) (eid : String) :
    countSessions (l ++ l2) eid = countSessions l eid + countSessions l2 eid := by
  simp [countSessions, List.filter_append]

theorem findSession_none_iff_count {l : List TrainingSession} {eid : String} :
    findSession l eid = none ↔ countSessions l eid = 0 := by
  induction l with
  | nil => simp [findSession, countSessions_nil]
  | cons a tl ih =>
    simp only [findSession, countSessions_cons]
    by_cases hc : a.calendar_event_id = eid
    · simp [hc]
    · simp [hc, ih]

theorem countSessions_replaceSession {l : List TrainingSession}
    {eid : String} {s s2 : TrainingSession}
    (h : findSession l eid = some s) (h2 : s2.calendar_event_id = eid)
    (eid2 : String) :
    countSessions (replaceSession l eid s2) eid2 = countSessions l eid2 := by
  induction l with
  | nil => simp [findSession] at h
  | cons a tl ih =>
    simp only [findSession, replaceSession] at h ⊢
    by_cases hc : a.calendar_event_id = eid
    · rw [if_pos hc]
      rw [countSessions_cons, countSessions_cons, h2, hc]
    · rw [if_neg hc] at h ⊢
      rw [countSessions_cons, countSessions_cons, ih h]

theorem findToken_id {l : List OAuthToken} {tid : Nat} {t : OAuthToken}
    (h : findToken l tid = some t) : t.trainer_id = tid := by
  induction l with
  | nil => simp [findToken] at h
  | cons a tl ih =>
    simp only [findToken] at h
    by_cases hc : a.trainer_id = tid
    · rw [if_pos hc] at h; cases h; exact hc
    · rw [if_neg hc] at h; exact ih h

theorem findToken_replaceToken {l : List OAuthToken} {tid : Nat}
    {t t2 : OAuthToken} (h : findToken l tid = some t)
    (h2 : t2.trainer_id = tid) :
    findToken (replaceToken l tid t2) tid = some t2 := by
  induction l with
  | nil => simp [findToken] at h
  | cons a tl ih =>
    simp only [findToken, replaceToken] at h ⊢
    by_cases hc : a.trainer_id = tid
    · rw [if_pos hc]; simp [findToken, h2]
    · rw [if_neg hc] at h ⊢; simp only [findToken]
      rw [if_neg hc]; exact ih h

/-! ## Effect-trace lemmas -/

theorem mem_send_telegram_message {b : String} {c : Int} {t : String}
    {x : Effect} (h : x ∈ send_telegram_message b c t) :
    x = Effect.telegramSend c t := by
  unfold send_telegram_message at h
  by_cases hb : b = ""
  · rw [if_pos hb] at h; cases h
  · rw [if_neg hb] at h; simpa using h

theorem send_telegram_message_empty (c : Int) (t : String) :
    send_telegram_message "" c t = [] := rfl

theorem sendCount_append (a b : List Effect) :
    sendCount (a ++ b) = sendCount a + sendCount b := by
  simp [sendCount, List.filter_append]

theorem commitCount_append (a b : List Effect) :
    commitCount (a ++ b) = commitCount a + commitCount b := by
  simp [commitCount, List.filter_append]

theorem sendCount_send_le_one (b : String) (c : Int) (t : String) :
    sendCount (send_telegram_message b c t) ≤ 1 := by
  unfold send_telegram_message
  by_cases hb : b = "" <;> simp [hb, sendCount]

theorem sendCount_eq_zero_iff {tr : List Effect} :
    sendCount tr = 0 ↔ ∀ c t, Effect.telegramSend c t ∉ tr := by
  rw [sendCount, List.length_eq_zero, List.filter_eq_nil_iff]
  constructor
  · intro h c t hmem
    have := h _ hmem
    simp at this
  · intro h x hx
    cases x <;> simp_all

theorem commitCount_of_sends {tr : List Effect}
    (h : ∀ x ∈ tr, ∃ c t, x = Effect.telegramSend c t) :
    commitCount tr = 0 := by
  induction tr with
  | nil => rfl
  | cons a tl ih =>
    obtain ⟨c, t, rfl⟩ := h a (by simp)
    have := ih (fun x hx => h x (by simp [hx]))
    simpa [commitCount, List.filter_cons] using this

theorem refreshCall_not_mem_of_sends {tr : List Effect}
    (h : ∀ x ∈ tr, ∃ c t, x = Effect.telegramSend c t) (rt : Option String) :
    Effect.refreshCall rt ∉ tr := by
  intro hmem
  obtain ⟨c, t, hx⟩ := h _ hmem
  cases hx

/-! ## upsertRecord / storeSession lemmas -/

theorem upsertRecord_calendar_event_id {tid : Nat} {mc : Option Client}
    {eid summary : String} {sd ed : Time} {existing : Option TrainingSession}
    (h : ∀ s, existing = some s → s.calendar_event_id = eid) :
    (upsertRecord tid mc eid summary sd ed existing).calendar_event_id = eid := by
  cases existing with
  | none => cases mc <;> rfl
  | some s =>
    have := h s rfl
    cases mc <;> simp [upsertRecord, this]

theorem upsertRecord_notified_at (tid : Nat) (mc : Option Client)
    (eid summary : String) (sd ed : Time)
    (existing : Option TrainingSession) :
    (upsertRecord tid mc eid summary sd ed existing).notified_at =
      match existing with
      | none => none
      | some s => s.notified_at := by
  cases existing <;> cases mc <;> rfl

theorem findSession_storeSession_same {sessions : List TrainingSession}
    {eid : String} {s2 : TrainingSession}
    (h2 : s2.calendar_event_id = eid) :
    findSession (storeSession sessions (findSession sessions eid) eid s2) eid
      = some s2 := by
  cases hf : findSession sessions eid with
  | none =>
    simp only [storeSession]
    rw [findSession_append_none hf]
    simp [findSession, h2]
  | some s =>
    simp only [storeSession]
    exact findSession_replaceSession_same hf h2

theorem findSession_storeSession_other {sessions : List TrainingSession}
    {eid eid2 : String} {s2 : TrainingSession}
    (h2 : s2.calendar_event_id = eid) (hne : eid2 ≠ eid) :
    findSession (storeSession sessions (findSession sessions eid) eid s2) eid2
      = findSession sessions eid2 := by
  cases hf : findSession sessions eid with
  | none =>
    simp only [storeSession]
    cases hg : findSession sessions eid2 with
    | none =>
      rw [findSession_append_none hg]
      simp only [findSession]
      rw [if_neg (by rw [h2]; exact fun hx => hne hx.symm)]
    | some s => exact findSession_append_some hg
  | some s =>
    simp only [storeSession]
    exact findSession_replaceSession_other h2 hne

theorem countSessions_storeSession {sessions : List TrainingSession}
    {eid : String} {s2 : TrainingSession}
    (h2 : s2.calendar_event_id = eid) (eid2 : String) :
    countSessions (storeSession sessions (findSession sessions eid) eid s2) eid2
      = countSessions sessions eid2 +
        (match findSession sessions eid with
         | none => if s2.calendar_event_id = eid2 then 1 else 0
         | some _ => 0) := by
  cases hf : findSession sessions eid with
  | none =>
    simp only [storeSession]
    rw [countSessions_append]
    rw [countSessions_cons, countSessions_nil]
    omega
  | some s =>
    simp only [storeSession]
    rw [countSessions_replaceSession hf h2 eid2]
    omega

theorem length_storeSession {sessions : List TrainingSession} {eid : String}
    (existing : Option TrainingSession) (s2 : TrainingSession) :
    (storeSession sessions existing eid s2).length =
      match existing with
      | none => sessions.length + 1
      | some _ => sessions.length := by
  cases existing with
  | none => simp [storeSession]
  | some s => simp [storeSession, length_replaceSession]

/-! ## processEvent lemmas -/

theorem processEvent_skip {ev : GEvent}
    (h : ev.startDateTime = none ∨ ev.endDateTime = none)
    (S : Settings) (tid : Nat) (m : List (String × Client)) (now : Time)
    (sessions : List TrainingSession) :
    processEvent S tid m now sessions ev = (sessions, []) := by
  unfold processEvent
  rcases h with h | h
  · rw [h]
  · rw [h]; cases ev.startDateTime <;> rfl

theorem processEvent_eq_of_some {ev : GEvent} {sd ed : Time}
    (hs : ev.startDateTime = some sd) (he : ev.endDateTime = some ed)
    (S : Settings) (tid : Nat) (m : List (String × Client)) (now : Time)
    (sessions : List TrainingSession) :
    processEvent S tid m now sessions ev =
      match matchClient m (ev.summary.getD "Тренировка") with
      | some c =>
        if (upsertRecord tid (matchClient m (ev.summary.getD "Тренировка"))
              ev.id (ev.summary.getD "Тренировка") sd ed
              (findSession sessions ev.id)).notified_at = none ∧
            now ≤ sd ∧ sd ≤ now + 24 * 3600 then
          (storeSession sessions (findSession sessions ev.id) ev.id
             { upsertRecord tid
                 (matchClient m (ev.summary.getD "Тренировка")) ev.id
                 (ev.summary.getD "Тренировка") sd ed
                 (findSession sessions ev.id) with
               notified_at := some now },
           send_telegram_message S.telegram_bot_token c.telegram_chat_id
             (reminderText sd (ev.summary.getD "Тренировка")))
        else
          (storeSession sessions (findSession sessions ev.id) ev.id
             (upsertRecord tid
               (matchClient m (ev.summary.getD "Тренировка")) ev.id
               (ev.summary.getD "Тренировка") sd ed
               (findSession sessions ev.id)), [])
      | none =>
        (storeSession sessions (findSession sessions ev.id) ev.id
           (upsertRecord tid (matchClient m (ev.summary.getD "Тренировка"))
             ev.id (ev.summary.getD "Тренировка") sd ed
             (findSession sessions ev.id)), []) := by
  unfold processEvent
  rw [hs, he]

theorem upsertRecord_notified_eq_stored (tid : Nat) (mc : Option Client)
    (summary : String) (sd ed : Time) (sessions : List TrainingSession)
    (eid : String) :
    (upsertRecord tid mc eid summary sd ed
        (findSession sessions eid)).notified_at =
      storedNotified sessions eid := by
  rw [upsertRecord_notified_at, storedNotified]
  cases findSession sessions eid <;> rfl

theorem processEvent_effects_send (S : Settings) (tid : Nat)
    (m : List (String × Client)) (now : Time)
    (sessions : List TrainingSession) (ev : GEvent) :
    ∀ x ∈ (processEvent S tid m now sessions ev).2,
      ∃ c t, x = Effect.telegramSend c t := by
  intro x hx
  cases hs : ev.startDateTime with
  | none => rw [processEvent_skip (Or.inl hs)] at hx; cases hx
  | some sd =>
    cases he : ev.endDateTime with
    | none => rw [processEvent_skip (Or.inr he)] at hx; cases hx
    | some ed =>
      rw [processEvent_eq_of_some hs he] at hx
      cases hm : matchClient m (ev.summary.getD "Тренировка") with
      | none => simp only [hm] at hx; cases hx
      | some c =>
        simp only [hm] at hx
        split at hx
        · exact ⟨_, _, mem_send_telegram_message hx⟩
        · cases hx

theorem processEvent_sendCount_le_one (S : Settings) (tid : Nat)
    (m : List (String × Client)) (now : Time)
    (sessions : List TrainingSession) (ev : GEvent) :
    sendCount (processEvent S tid m now sessions ev).2 ≤ 1 := by
  cases hs : ev.startDateTime with
  | none => rw [processEvent_skip (Or.inl hs)]; simp [sendCount]
  | some sd =>
    cases he : ev.endDateTime with
    | none => rw [processEvent_skip (Or.inr he)]; simp [sendCount]
    | some ed =>
      rw [processEvent_eq_of_some hs he]
      cases hm : matchClient m (ev.summary.getD "Тренировка") with
      | none => simp [sendCount]
      | some c =>
        simp only
        split
        · exact sendCount_send_le_one ..
        · simp [sendCount]

theorem processEvent_not_skipped_present {sessions : List TrainingSession}
    {ev : GEvent} {sd ed : Time}
    (hs : ev.startDateTime = some sd) (he : ev.endDateTime = some ed)
    (S : Settings) (tid : Nat) (m : List (String × Client)) (now : Time) :
    ∃ s2, findSession (processEvent S tid m now sessions ev).1 ev.id
      = some s2 := by
  have hid : ∀ s', findSession sessions ev.id = some s' →
      s'.calendar_event_id = ev.id := fun _ h => findSession_id h
  rw [processEvent_eq_of_some hs he]
  cases hm : matchClient m (ev.summary.getD "Тренировка") with
  | none =>
    exact ⟨_, findSession_storeSession_same (upsertRecord_calendar_event_id hid)⟩
  | some c =>
    simp only
    split
    · exact ⟨_, findSession_storeSession_same (upsertRecord_calendar_event_id hid)⟩
    · exact ⟨_, findSession_storeSession_same (upsertRecord_calendar_event_id hid)⟩

theorem processEvent_preserves_presence {sessions : List TrainingSession}
    {eid : String} {s : TrainingSession}
    (hf : findSession sessions eid = some s)
    (S : Settings) (tid : Nat) (m : List (String × Client)) (now : Time)
    (ev : GEvent) :
    ∃ s2, findSession (processEvent S tid m now sessions ev).1 eid
      = some s2 := by
  cases hs : ev.startDateTime with
  | none => rw [processEvent_skip (Or.inl hs)]; exact ⟨s, hf⟩
  | some sd =>
    cases he : ev.endDateTime with
    | none => rw [processEvent_skip (Or.inr he)]; exact ⟨s, hf⟩
    | some ed =>
      by_cases heq : eid = ev.id
      · subst heq
        exact processEvent_not_skipped_present hs he ..
      · have hid : ∀ s', findSession sessions ev.id = some s' →
            s'.calendar_event_id = ev.id := fun _ h => findSession_id h
        rw [processEvent_eq_of_some hs he]
        cases hm : matchClient m (ev.summary.getD "Тренировка") with
        | none =>
          rw [findSession_storeSession_other
            (upsertRecord_calendar_event_id hid) heq]
          exact ⟨s, hf⟩
        | some c =>
          simp only
          split
          · rw [findSession_storeSession_other (by
              simpa using upsertRecord_calendar_event_id hid) heq]
            exact ⟨s, hf⟩
          · rw [findSession_storeSession_other
              (upsertRecord_calendar_event_id hid) heq]
            exact ⟨s, hf⟩

theorem processEvent_already_notified {sessions : List TrainingSession}
    {ev : GEvent} {s : TrainingSession} {t : Time}
    (hf : findSession sessions ev.id = some s) (hn : s.notified_at = some t)
    (S : Settings) (tid : Nat) (m : List (String × Client)) (now : Time) :
    (processEvent S tid m now sessions ev).2 = [] ∧
      ∃ s2, findSession (processEvent S tid m now sessions ev).1 ev.id
          = some s2 ∧ s2.notified_at = some t := by
  have hid : ∀ s', findSession sessions ev.id = some s' →
      s'.calendar_event_id = ev.id := fun _ h => findSession_id h
  have hstored : storedNotified sessions ev.id = some t := by
    rw [storedNotified, hf]; exact hn
  cases hs : ev.startDateTime with
  | none => rw [processEvent_skip (Or.inl hs)]; exact ⟨rfl, s, hf, hn⟩
  | some sd =>
    cases he : ev.endDateTime with
    | none => rw [processEvent_skip (Or.inr he)]; exact ⟨rfl, s, hf, hn⟩
    | some ed =>
      rw [processEvent_eq_of_some hs he]
      cases hm : matchClient m (ev.summary.getD "Тренировка") with
      | none =>
        refine ⟨rfl, _,
          findSession_storeSession_same (upsertRecord_calendar_event_id hid),
          ?_⟩
        rw [upsertRecord_notified_eq_stored]
        exact hstored
      | some c =>
        simp only
        have hno : (upsertRecord tid (some c) ev.id
            (ev.summary.getD "Тренировка") sd ed
            (findSession sessions ev.id)).notified_at = some t := by
          rw [upsertRecord_notified_eq_stored]; exact hstored
        rw [if_neg (fun hcond =>
          absurd (hno.symm.trans hcond.1) (by simp))]
        refine ⟨rfl, _,
          findSession_storeSession_same (upsertRecord_calendar_event_id hid),
          ?_⟩
        exact hno

theorem processEvent_notified_only_when {sessions : List TrainingSession}
    {ev : GEvent} {s2 : TrainingSession}
    (S : Settings) (tid : Nat) (m : List (String × Client)) (now : Time)
    (hf2 : findSession (processEvent S tid m now sessions ev).1 ev.id
      = some s2)
    (hchange : s2.notified_at ≠ storedNotified sessions ev.id) :
    storedNotified sessions ev.id = none ∧
    s2.notified_at = some now ∧
    (matchClient m (ev.summary.getD "Тренировка")).isSome = true ∧
    ∃ sd, ev.startDateTime = some sd ∧ now ≤ sd ∧ sd ≤ now + 24 * 3600 := by
  have hid : ∀ s', findSession sessions ev.id = some s' →
      s'.calendar_event_id = ev.id := fun _ h => findSession_id h
  cases hs : ev.startDateTime with
  | none =>
    rw [processEvent_skip (Or.inl hs)] at hf2
    exact absurd (by rw [storedNotified, hf2]) hchange
  | some sd =>
    cases he : ev.endDateTime with
    | none =>
      rw [processEvent_skip (Or.inr he)] at hf2
      exact absurd (by rw [storedNotified, hf2]) hchange
    | some ed =>
      rw [processEvent_eq_of_some hs he] at hf2
      cases hm : matchClient m (ev.summary.getD "Тренировка") with
      | none =>
        rw [hm] at hf2
        rw [findSession_storeSession_same
          (upsertRecord_calendar_event_id hid)] at hf2
        cases hf2
        exact absurd (upsertRecord_notified_eq_stored ..) hchange
      | some c =>
        simp only [hm] at hf2
        split at hf2
        case isTrue hcond =>
          rw [findSession_storeSession_same (by
            simpa using upsertRecord_calendar_event_id hid)] at hf2
          cases hf2
          refine ⟨?_, rfl, rfl, sd, rfl, hcond.2.1, hcond.2.2⟩
          rw [← upsertRecord_notified_eq_stored tid (some c)
            (ev.summary.getD "Тренировка") sd ed sessions ev.id]
          exact hcond.1
        case isFalse hcond =>
          rw [findSession_storeSession_same
            (upsertRecord_calendar_event_id hid)] at hf2
          cases hf2
          exact absurd (upsertRecord_notified_eq_stored ..) hchange

theorem processEvent_count_le_one {sessions : List TrainingSession}
    (S : Settings) (tid : Nat) (m : List (String × Client)) (now : Time)
    (ev : GEvent) (eid2 : String)
    (hinv : countSessions sessions eid2 ≤ 1) :
    countSessions (processEvent S tid m now sessions ev).1 eid2 ≤ 1 := by
  have hid : ∀ s', findSession sessions ev.id = some s' →
      s'.calendar_event_id = ev.id := fun _ h => findSession_id h
  cases hs : ev.startDateTime with
  | none => rw [processEvent_skip (Or.inl hs)]; exact hinv
  | some sd =>
    cases he : ev.endDateTime with
    | none => rw [processEvent_skip (Or.inr he)]; exact hinv
    | some ed =>
      rw [processEvent_eq_of_some hs he]
      have key : ∀ s2 : TrainingSession, s2.calendar_event_id = ev.id →
          countSessions
            (storeSession sessions (findSession sessions ev.id) ev.id s2)
            eid2 ≤ 1 := by
        intro s2 h2
        rw [countSessions_storeSession h2 eid2]
        cases hf : findSession sessions ev.id with
        | some s => simpa using hinv
        | none =>
          by_cases heq : s2.calendar_event_id = eid2
          · have : countSessions sessions eid2 = 0 := by
              rw [← h2.symm.trans heq]
              exact findSession_none_iff_count.mp hf
            simp [heq, this]
          · simpa [heq] using hinv
      cases hm : matchClient m (ev.summary.getD "Тренировка") with
      | none => exact key _ (upsertRecord_calendar_event_id hid)
      | some c =>
        simp only
        split
        · exact key _ (by simpa using upsertRecord_calendar_event_id hid)
        · exact key _ (upsertRecord_calendar_event_id hid)

theorem processEvent_length_of_existing {sessions : List TrainingSession}
    {ev : GEvent} {s : TrainingSession}
    (hf : findSession sessions ev.id = some s)
    (S : Settings) (tid : Nat) (m : List (String × Client)) (now : Time) :
    (processEvent S tid m now sessions ev).1.length = sessions.length := by
  cases hs : ev.startDateTime with
  | none => rw [processEvent_skip (Or.inl hs)]
  | some sd =>
    cases he : ev.endDateTime with
    | none => rw [processEvent_skip (Or.inr he)]
    | some ed =>
      rw [processEvent_eq_of_some hs he]
      cases hm : matchClient m (ev.summary.getD "Тренировка") with
      | none => rw [hf]; simp [storeSession, length_replaceSession]
      | some c =>
        simp only
        split
        · rw [hf]; simp [storeSession, length_replaceSession]
        · rw [hf]; simp [storeSession, length_replaceSession]

theorem processEvent_length_skip {ev : GEvent}
    (h : ev.startDateTime = none ∨ ev.endDateTime = none)
    (S : Settings) (tid : Nat) (m : List (String × Client)) (now : Time)
    (sessions : List TrainingSession) :
    (processEvent S tid m now sessions ev).1.length = sessions.length := by
  rw [processEvent_skip h]

/-! ## syncEvents fold lemmas -/

theorem syncEvents_nil (S : Settings) (tid : Nat)
    (m : List (String × Client)) (now : Time)
    (sessions : List TrainingSession) :
    syncEvents S tid m now sessions [] = (sessions, []) := rfl

theorem syncEvents_foldl_acc (S : Settings) (tid : Nat)
    (m : List (String × Client)) (now : Time) (evs : List GEvent)
    (sessions : List TrainingSession) (tr : List Effect) :
    evs.foldl
      (fun acc ev =>
        ((processEvent S tid m now acc.1 ev).1,
         acc.2 ++ (processEvent S tid m now acc.1 ev).2))
      (sessions, tr)
    = ((syncEvents S tid m now sessions evs).1,
       tr ++ (syncEvents S tid m now sessions evs).2) := by
  induction evs generalizing sessions tr with
  | nil => simp [syncEvents]
  | cons ev evs ih =>
    simp only [List.foldl_cons]
    rw [ih]
    conv_rhs => rw [syncEvents]
    simp only [List.foldl_cons]
    rw [ih]
    simp

theorem syncEvents_cons (S : Settings) (tid : Nat)
    (m : List (String × Client)) (now : Time)
    (sessions : List TrainingSession) (ev : GEvent) (evs : List GEvent) :
    syncEvents S tid m now sessions (ev :: evs)
      = ((syncEvents S tid m now
            (processEvent S tid m now sessions ev).1 evs).1,
         (processEvent S tid m now sessions ev).2 ++
           (syncEvents S tid m now
             (processEvent S tid m now sessions ev).1 evs).2) := by
  rw [syncEvents]
  simp only [List.foldl_cons]
  have := syncEvents_foldl_acc S tid m now evs
    (processEvent S tid m now sessions ev).1
    (processEvent S tid m now sessions ev).2
  simpa using this

theorem syncEvents_effects_send (S : Settings) (tid : Nat)
    (m : List (String × Client)) (now : Time) :
    ∀ (evs : List GEvent) (sessions : List TrainingSession),
      ∀ x ∈ (syncEvents S tid m now sessions evs).2,
        ∃ c t, x = Effect.telegramSend c t := by
  intro evs
  induction evs with
  | nil => intro sessions x hx; rw [syncEvents_nil] at hx; cases hx
  | cons ev evs ih =>
    intro sessions x hx
    rw [syncEvents_cons] at hx
    rcases List.mem_append.mp hx with hx | hx
    · exact processEvent_effects_send S tid m now sessions ev x hx
    · exact ih _ x hx

theorem syncEvents_commitCount (S : Settings) (tid : Nat)
    (m : List (String × Client)) (now : Time) (evs : List GEvent)
    (sessions : List TrainingSession) :
    commitCount (syncEvents S tid m now sessions evs).2 = 0 :=
  commitCount_of_sends (syncEvents_effects_send S tid m now evs sessions)

theorem syncEvents_preserves_presence (S : Settings) (tid : Nat)
    (m : List (String × Client)) (now : Time) :
    ∀ (evs : List GEvent) (sessions : List TrainingSession)
      (eid : String) (s : TrainingSession),
      findSession sessions eid = some s →
      ∃ s2, findSession (syncEvents S tid m now sessions evs).1 eid
        = some s2 := by
  intro evs
  induction evs with
  | nil => intro sessions eid s hf; rw [syncEvents_nil]; exact ⟨s, hf⟩
  | cons ev evs ih =>
    intro sessions eid s hf
    rw [syncEvents_cons]
    obtain ⟨s2, hs2⟩ := processEvent_preserves_presence hf S tid m now ev
    exact ih _ eid s2 hs2

theorem syncEvents_count_le_one (S : Settings) (tid : Nat)
    (m : List (String × Client)) (now : Time) :
    ∀ (evs : List GEvent) (sessions : List TrainingSession) (eid : String),
      countSessions sessions eid ≤ 1 →
      countSessions (syncEvents S tid m now sessions evs).1 eid ≤ 1 := by
  intro evs
  induction evs with
  | nil => intro sessions eid h; rw [syncEvents_nil]; exact h
  | cons ev evs ih =>
    intro sessions eid h
    rw [syncEvents_cons]
    exact ih _ eid (processEvent_count_le_one S tid m now ev eid h)

theorem syncEvents_processed_present (S : Settings) (tid : Nat)
    (m : List (String × Client)) (now : Time) :
    ∀ (evs : List GEvent) (sessions : List TrainingSession) (ev : GEvent),
      ev ∈ evs → ev.startDateTime ≠ none → ev.endDateTime ≠ none →
      ∃ s2, findSession (syncEvents S tid m now sessions evs).1 ev.id
        = some s2 := by
  intro evs
  induction evs with
  | nil => intro _ _ h; cases h
  | cons ev0 evs ih =>
    intro sessions ev hmem hs he
    rw [syncEvents_cons]
    rcases List.mem_cons.mp hmem with rfl | hmem
    · obtain ⟨sd, hsd⟩ := Option.ne_none_iff_exists'.mp hs
      obtain ⟨ed, hed⟩ := Option.ne_none_iff_exists'.mp he
      obtain ⟨s2, hs2⟩ :=
        @processEvent_not_skipped_present sessions ev sd ed hsd hed S tid m now
      exact syncEvents_preserves_presence S tid m now evs _ ev.id s2 hs2
    · exact ih _ ev hmem hs he

theorem syncEvents_length_of_present (S : Settings) (tid : Nat)
    (m : List (String × Client)) (now : Time) :
    ∀ (evs : List GEvent) (sessions : List TrainingSession),
      (∀ ev ∈ evs, ev.startDateTime ≠ none → ev.endDateTime ≠ none →
        ∃ s, findSession sessions ev.id = some s) →
      (syncEvents S tid m now sessions evs).1.length = sessions.length := by
  intro evs
  induction evs with
  | nil => intro sessions _; rw [syncEvents_nil]
  | cons ev evs ih =>
    intro sessions hpres
    rw [syncEvents_cons]
    have htail : ∀ ev2 ∈ evs, ev2.startDateTime ≠ none →
        ev2.endDateTime ≠ none →
        ∃ s, findSession (processEvent S tid m now sessions ev).1 ev2.id
          = some s := by
      intro ev2 hmem hs he
      obtain ⟨s, hsf⟩ := hpres ev2 (List.mem_cons_of_mem _ hmem) hs he
      exact processEvent_preserves_presence hsf S tid m now ev
    rw [ih _ htail]
    by_cases hs : ev.startDateTime = none
    · exact processEvent_length_skip (Or.inl hs) ..
    · by_cases he : ev.endDateTime = none
      · exact processEvent_length_skip (Or.inr he) ..
      · obtain ⟨s, hsf⟩ := hpres ev (List.mem_cons_self ..) hs he
        exact processEvent_length_of_existing hsf ..

/-! ## sync-run unfolding lemmas -/

theorem sync_calendar_no_token {st : SyncState} {tid : Nat}
    (htok : findToken st.tokens tid = none)
    (S : Settings) (now : Time) (evs : List GEvent)
    (resp : RefreshResponse) :
    sync_calendar_for_trainer S tid st now evs resp
      = (.httpError 400 "Trainer has no Google token", st, []) := by
  unfold sync_calendar_for_trainer
  rw [htok]

theorem sync_calendar_fresh {st : SyncState} {tid : Nat}
    {token : OAuthToken} {now : Time}
    (htok : findToken st.tokens tid = some token)
    (hfresh : ¬ token.expires_at ≤ now + 60)
    (S : Settings) (evs : List GEvent) (resp : RefreshResponse) :
    sync_calendar_for_trainer S tid st now evs resp
      = syncAfterToken S tid st now evs token.access_token [] := by
  unfold sync_calendar_for_trainer
  rw [htok]
  exact if_neg hfresh

theorem sync_calendar_refresh {st : SyncState} {tid : Nat}
    {token : OAuthToken} {now : Time}
    (htok : findToken st.tokens tid = some token)
    (hexp : token.expires_at ≤ now + 60)
    (S : Settings) (evs : List GEvent) (resp : RefreshResponse) :
    sync_calendar_for_trainer S tid st now evs resp
      = syncAfterToken S tid
          { st with
            tokens := replaceToken st.tokens tid
              (refreshedToken token now resp) }
          now evs (refreshedToken token now resp).access_token
          [.refreshCall token.refresh_token, .commit] := by
  unfold sync_calendar_for_trainer
  rw [htok]
  exact if_pos hexp

theorem sendCount_nil : sendCount [] = 0 := rfl

theorem sendCount_cons_commit (l : List Effect) :
    sendCount (Effect.commit :: l) = sendCount l := rfl

theorem sendCount_cons_refresh (rt : Option String) (l : List Effect) :
    sendCount (Effect.refreshCall rt :: l) = sendCount l := rfl

theorem sendCount_cons_fetch (a : String) (l : List Effect) :
    sendCount (Effect.fetchEvents a :: l) = sendCount l := rfl

theorem sync_sessions_eq_of_token {st : SyncState} {tid : Nat}
    {token : OAuthToken}
    (htok : findToken st.tokens tid = some token)
    (S : Settings) (now : Time) (evs : List GEvent)
    (resp : RefreshResponse) :
    (sync_calendar_for_trainer S tid st now evs resp).2.1.sessions
      = (syncEvents S tid
          (buildClientMap
            (st.clients.filter (fun c => c.trainer_id == tid)))
          now st.sessions evs).1 := by
  by_cases hexp : token.expires_at ≤ now + 60
  · rw [sync_calendar_refresh htok hexp]; rfl
  · rw [sync_calendar_fresh htok hexp]; rfl

theorem sync_clients_eq (S : Settings) (tid : Nat) (st : SyncState)
    (now : Time) (evs : List GEvent) (resp : RefreshResponse) :
    (sync_calendar_for_trainer S tid st now evs resp).2.1.clients
      = st.clients := by
  cases htok : findToken st.tokens tid with
  | none => rw [sync_calendar_no_token htok]
  | some token =>
    by_cases hexp : token.expires_at ≤ now + 60
    · rw [sync_calendar_refresh htok hexp]; rfl
    · rw [sync_calendar_fresh htok hexp]; rfl

theorem sync_token_present {st : SyncState} {tid : Nat}
    {token : OAuthToken}
    (htok : findToken st.tokens tid = some token)
    (S : Settings) (now : Time) (evs : List GEvent)
    (resp : RefreshResponse) :
    ∃ token2, findToken
      (sync_calendar_for_trainer S tid st now evs resp).2.1.tokens tid
        = some token2 := by
  by_cases hexp : token.expires_at ≤ now + 60
  · rw [sync_calendar_refresh htok hexp]
    exact ⟨_, findToken_replaceToken htok
      (by simpa [refreshedToken] using findToken_id htok)⟩
  · rw [sync_calendar_fresh htok hexp]
    exact ⟨token, htok⟩

theorem sync_sendCount_eq {st : SyncState} {tid : Nat}
    {token : OAuthToken}
    (htok : findToken st.tokens tid = some token)
    (S : Settings) (now : Time) (evs : List GEvent)
    (resp : RefreshResponse) :
    sendCount (sync_calendar_for_trainer S tid st now evs resp).2.2
      = sendCount (syncEvents S tid
          (buildClientMap
            (st.clients.filter (fun c => c.trainer_id == tid)))
          now st.sessions evs).2 := by
  by_cases hexp : token.expires_at ≤ now + 60
  · rw [sync_calendar_refresh htok hexp]
    unfold syncAfterToken
    simp [sendCount_append, sendCount_cons_commit, sendCount_cons_refresh,
      sendCount_cons_fetch, sendCount_nil]
  · rw [sync_calendar_fresh htok hexp]
    unfold syncAfterToken
    simp [sendCount_append, sendCount_cons_commit, sendCount_cons_refresh,
      sendCount_cons_fetch, sendCount_nil]

theorem syncEvents_single (S : Settings) (tid : Nat)
    (m : List (String × Client)) (now : Time)
    (sessions : List TrainingSession) (ev : GEvent) :
    syncEvents S tid m now sessions [ev]
      = processEvent S tid m now sessions ev := by
  rw [syncEvents_cons, syncEvents_nil]
  simp

theorem processEvent_notify {sessions : List TrainingSession} {ev : GEvent}
    {sd ed : Time} {c : Client} {m : List (String × Client)}
    (S : Settings) (tid : Nat) (now : Time)
    (hs : ev.startDateTime = some sd) (he : ev.endDateTime = some ed)
    (hm : matchClient m (ev.summary.getD "Тренировка") = some c)
    (hstored : storedNotified sessions ev.id = none)
    (hwin : now ≤ sd ∧ sd ≤ now + 24 * 3600) :
    processEvent S tid m now sessions ev
      = (storeSession sessions (findSession sessions ev.id) ev.id
          { upsertRecord tid (some c) ev.id (ev.summary.getD "Тренировка")
              sd ed (findSession sessions ev.id) with
            notified_at := some now },
         send_telegram_message S.telegram_bot_token c.telegram_chat_id
           (reminderText sd (ev.summary.getD "Тренировка"))) := by
  rw [processEvent_eq_of_some hs he]
  simp only [hm]
  rw [if_pos ⟨by rw [upsertRecord_notified_eq_stored]; exact hstored,
    hwin.1, hwin.2⟩]

theorem processEvent_send_implies_notified {sessions : List TrainingSession}
    {ev : GEvent} (S : Settings) (tid : Nat)
    (m : List (String × Client)) (now : Time)
    (hne : (processEvent S tid m now sessions ev).2 ≠ []) :
    ∃ s2, findSession (processEvent S tid m now sessions ev).1 ev.id
        = some s2 ∧ s2.notified_at = some now := by
  have hid : ∀ s', findSession sessions ev.id = some s' →
      s'.calendar_event_id = ev.id := fun _ h => findSession_id h
  cases hs : ev.startDateTime with
  | none => rw [processEvent_skip (Or.inl hs)] at hne; exact absurd rfl hne
  | some sd =>
    cases he : ev.endDateTime with
    | none => rw [processEvent_skip (Or.inr he)] at hne; exact absurd rfl hne
    | some ed =>
      rw [processEvent_eq_of_some hs he] at hne ⊢
      cases hm : matchClient m (ev.summary.getD "Тренировка") with
      | none => simp only [hm] at hne; simp at hne
      | some c =>
        simp only [hm] at hne ⊢
        by_cases hcond : (upsertRecord tid (some c) ev.id
            (ev.summary.getD "Тренировка") sd ed
            (findSession sessions ev.id)).notified_at = none ∧
            now ≤ sd ∧ sd ≤ now + 24 * 3600
        · rw [if_pos hcond]
          exact ⟨_, findSession_storeSession_same (by
            simpa using upsertRecord_calendar_event_id hid), rfl⟩
        · rw [if_neg hcond] at hne
          simp at hne

/-! ## Claims -/

/-- C6: for every trainer id with no stored OAuth token, a sync run fails
with the 400 "Trainer has no Google token" client error before fetching
events: the database state is returned unchanged (no sessions created or
updated) and the effect trace is empty (no fetch, no notification). -/
theorem C6_no_token_rejected {st : SyncState} {tid : Nat}
    (htok : findToken st.tokens tid = none)
    (S : Settings) (now : Time) (evs : List GEvent)
    (resp : RefreshResponse) :
    sync_calendar_for_trainer S tid st now evs resp
      = (SyncOutcome.httpError 400 "Trainer has no Google token", st, []) :=
  sync_calendar_no_token htok S now evs resp

/-- Witness for C6 at a concrete tokenless state. -/
theorem C6_no_token_rejected_witness :
    findToken (SyncState.mk [] [] []).tokens 2 = none ∧
    sync_calendar_for_trainer ⟨"bot", "sec"⟩ 2 ⟨[], [], []⟩ 0
        [⟨"e1", some "x", some 5, some 6⟩] ⟨"a", 10⟩
      = (SyncOutcome.httpError 400 "Trainer has no Google token",
         ⟨[], [], []⟩, []) :=
  ⟨rfl, C6_no_token_rejected
    (show findToken (SyncState.mk [] [] []).tokens 2 = none from rfl)
    ⟨"bot", "sec"⟩ 0 [⟨"e1", some "x", some 5, some 6⟩] ⟨"a", 10⟩⟩

/-- C9: with an empty configured webhook secret, the webhook handler's
secret check rejects every request with 404, for every provided path
secret — including one equal to the configured (empty) value. -/
theorem C9_empty_secret_locked (secret : String) :
    webhook_secret_rejects "" secret = true ∧
    webhook_secret_rejects "" "" = true := by
  constructor <;> simp [webhook_secret_rejects]

/-- C7: an event lacking both start and end dateTime is skipped by the
event loop — the session store is unchanged and no effects (hence no
notification) are produced for it — and a sync run over a list containing
such an event still succeeds with the full event count. -/
theorem C7_malformed_event_skipped {ev : GEvent}
    (hs : ev.startDateTime = none) (_he : ev.endDateTime = none)
    (S : Settings) (tid : Nat) (m : List (String × Client)) (now : Time)
    (sessions : List TrainingSession)
    {st : SyncState} {token : OAuthToken}
    (htok : findToken st.tokens tid = some token)
    (pre post : List GEvent) (resp : RefreshResponse) :
    processEvent S tid m now sessions ev = (sessions, []) ∧
    (sync_calendar_for_trainer S tid st now (pre ++ ev :: post) resp).1
      = SyncOutcome.ok (pre ++ ev :: post).length := by
  refine ⟨processEvent_skip (Or.inl hs) .., ?_⟩
  by_cases hexp : token.expires_at ≤ now + 60
  · rw [sync_calendar_refresh htok hexp]; rfl
  · rw [sync_calendar_fresh htok hexp]; rfl

/-- Witness for C7 at a concrete malformed event. -/
theorem C7_malformed_event_skipped_witness :
    (GEvent.mk "x" none none none).startDateTime = none ∧
    (GEvent.mk "x" none none none).endDateTime = none ∧
    findToken [⟨1, "at", some "rt", "Bearer", 30⟩] 1
      = some ⟨1, "at", some "rt", "Bearer", 30⟩ ∧
    (processEvent ⟨"b", "s"⟩ 1 [] 0 [] ⟨"x", none, none, none⟩ = ([], []) ∧
     (sync_calendar_for_trainer ⟨"b", "s"⟩ 1
         ⟨[⟨1, "at", some "rt", "Bearer", 30⟩], [], []⟩ 0
         [⟨"x", none, none, none⟩] ⟨"n", 5⟩).1
       = SyncOutcome.ok 1) :=
  ⟨rfl, rfl, rfl,
   C7_malformed_event_skipped rfl rfl ⟨"b", "s"⟩ 1 [] 0 []
     (show findToken
         (SyncState.mk [⟨1, "at", some "rt", "Bearer", 30⟩] [] []).tokens 1
       = some ⟨1, "at", some "rt", "Bearer", 30⟩ from rfl)
     [] [] ⟨"n", 5⟩⟩

/-- C5: during a sync run the stored token is refreshed — access token and
expiry replaced, with a refresh call in the trace — exactly when its
expiry is within 60 seconds of now; otherwise the token store is left
untouched, no refresh call occurs, and the calendar fetch carries the
stored access token unchanged. -/
theorem C5_token_refresh_iff {st : SyncState} {tid : Nat}
    {token : OAuthToken} {now : Time}
    (htok : findToken st.tokens tid = some token)
    (S : Settings) (evs : List GEvent) (resp : RefreshResponse) :
    (token.expires_at ≤ now + 60 →
      findToken
          (sync_calendar_for_trainer S tid st now evs resp).2.1.tokens tid
        = some { token with
                 access_token := resp.access_token
                 expires_at := now + resp.expires_in } ∧
      Effect.refreshCall token.refresh_token
        ∈ (sync_calendar_for_trainer S tid st now evs resp).2.2 ∧
      Effect.fetchEvents resp.access_token
        ∈ (sync_calendar_for_trainer S tid st now evs resp).2.2) ∧
    (¬ token.expires_at ≤ now + 60 →
      (sync_calendar_for_trainer S tid st now evs resp).2.1.tokens
        = st.tokens ∧
      (∀ rt, Effect.refreshCall rt
        ∉ (sync_calendar_for_trainer S tid st now evs resp).2.2) ∧
      Effect.fetchEvents token.access_token
        ∈ (sync_calendar_for_trainer S tid st now evs resp).2.2) := by
  constructor
  · intro hexp
    rw [sync_calendar_refresh htok hexp]
    refine ⟨?_, ?_, ?_⟩
    · exact findToken_replaceToken htok
        (by simpa [refreshedToken] using findToken_id htok)
    · unfold syncAfterToken
      simp
    · unfold syncAfterToken
      simp [refreshedToken]
  · intro hexp
    rw [sync_calendar_fresh htok hexp]
    refine ⟨rfl, ?_, ?_⟩
    · intro rt hmem
      unfold syncAfterToken at hmem
      simp at hmem
      exact refreshCall_not_mem_of_sends
        (syncEvents_effects_send S tid _ now evs st.sessions) rt hmem
    · unfold syncAfterToken
      simp

/-- Witness for C5 at a concrete near-expiry token. -/
theorem C5_token_refresh_iff_witness :
    findToken [⟨1, "at", some "rt", "Bearer", 30⟩] 1
      = some ⟨1, "at", some "rt", "Bearer", 30⟩ ∧
    (((30 : Int) ≤ 0 + 60 →
      findToken (sync_calendar_for_trainer ⟨"b", "s"⟩ 1
          ⟨[⟨1, "at", some "rt", "Bearer", 30⟩], [], []⟩ 0 []
          ⟨"newat", 3600⟩).2.1.tokens 1
        = some ⟨1, "newat", some "rt", "Bearer", 0 + 3600⟩ ∧
      Effect.refreshCall (some "rt")
        ∈ (sync_calendar_for_trainer ⟨"b", "s"⟩ 1
            ⟨[⟨1, "at", some "rt", "Bearer", 30⟩], [], []⟩ 0 []
            ⟨"newat", 3600⟩).2.2 ∧
      Effect.fetchEvents "newat"
        ∈ (sync_calendar_for_trainer ⟨"b", "s"⟩ 1
            ⟨[⟨1, "at", some "rt", "Bearer", 30⟩], [], []⟩ 0 []
            ⟨"newat", 3600⟩).2.2) ∧
     (¬ (30 : Int) ≤ 0 + 60 →
      (sync_calendar_for_trainer ⟨"b", "s"⟩ 1
          ⟨[⟨1, "at", some "rt", "Bearer", 30⟩], [], []⟩ 0 []
          ⟨"newat", 3600⟩).2.1.tokens
        = [⟨1, "at", some "rt", "Bearer", 30⟩] ∧
      (∀ rt, Effect.refreshCall rt
        ∉ (sync_calendar_for_trainer ⟨"b", "s"⟩ 1
            ⟨[⟨1, "at", some "rt", "Bearer", 30⟩], [], []⟩ 0 []
            ⟨"newat", 3600⟩).2.2) ∧
      Effect.fetchEvents "at"
        ∈ (sync_calendar_for_trainer ⟨"b", "s"⟩ 1
            ⟨[⟨1, "at", some "rt", "Bearer", 30⟩], [], []⟩ 0 []
            ⟨"newat", 3600⟩).2.2)) :=
  ⟨rfl, C5_token_refresh_iff
    (show findToken
        (SyncState.mk [⟨1, "at", some "rt", "Bearer", 30⟩] [] []).tokens 1
      = some ⟨1, "at", some "rt", "Bearer", 30⟩ from rfl)
    ⟨"b", "s"⟩ [] ⟨"newat", 3600⟩⟩

/-- C4 counterexample: with a near-expiry token a sync run commits twice —
once for the token mutation, before the calendar fetch, and once at the
end — so the run's side effects are not committed in a single final
commit. -/
theorem C4_counterexample :
    (sync_calendar_for_trainer ⟨"b", "s"⟩ 1
        ⟨[⟨1, "at", some "rt", "Bearer", 30⟩], [], []⟩ 0 []
        ⟨"newat", 3600⟩).2.2
      = [Effect.refreshCall (some "rt"), Effect.commit,
         Effect.fetchEvents "newat", Effect.commit] ∧
    commitCount (sync_calendar_for_trainer ⟨"b", "s"⟩ 1
        ⟨[⟨1, "at", some "rt", "Bearer", 30⟩], [], []⟩ 0 []
        ⟨"newat", 3600⟩).2.2 = 2 := by
  constructor <;> rfl

/-- C4 (amended): the session upserts and notification marks of a sync run
are committed together in a single final commit; however, when the token
is refreshed, the token mutation is committed separately in an extra
commit placed immediately after the refresh call and before the calendar
fetch.  With no refresh the final commit is the only one. -/
theorem C4_commit_structure {st : SyncState} {tid : Nat}
    {token : OAuthToken} {now : Time}
    (htok : findToken st.tokens tid = some token)
    (S : Settings) (evs : List GEvent) (resp : RefreshResponse) :
    ∃ a evEff, commitCount evEff = 0 ∧
      (sync_calendar_for_trainer S tid st now evs resp).2.2
        = (if token.expires_at ≤ now + 60
            then [Effect.refreshCall token.refresh_token, Effect.commit]
            else [])
          ++ Effect.fetchEvents a :: (evEff ++ [Effect.commit]) := by
  by_cases hexp : token.expires_at ≤ now + 60
  · rw [sync_calendar_refresh htok hexp, if_pos hexp]
    refine ⟨(refreshedToken token now resp).access_token,
      (syncEvents S tid
        (buildClientMap (st.clients.filter (fun c => c.trainer_id == tid)))
        now st.sessions evs).2,
      syncEvents_commitCount .., ?_⟩
    unfold syncAfterToken
    simp
  · rw [sync_calendar_fresh htok hexp, if_neg hexp]
    refine ⟨token.access_token,
      (syncEvents S tid
        (buildClientMap (st.clients.filter (fun c => c.trainer_id == tid)))
        now st.sessions evs).2,
      syncEvents_commitCount .., ?_⟩
    unfold syncAfterToken
    simp

/-- Witness for the amended C4 at a concrete fresh-token state. -/
theorem C4_commit_structure_witness :
    findToken [⟨1, "at", some "rt", "Bearer", 1000⟩] 1
      = some ⟨1, "at", some "rt", "Bearer", 1000⟩ ∧
    ∃ a evEff, commitCount evEff = 0 ∧
      (sync_calendar_for_trainer ⟨"b", "s"⟩ 1
          ⟨[⟨1, "at", some "rt", "Bearer", 1000⟩], [], []⟩ 0 []
          ⟨"n", 5⟩).2.2
        = (if (1000 : Int) ≤ 0 + 60
            then [Effect.refreshCall (some "rt"), Effect.commit]
            else [])
          ++ Effect.fetchEvents a :: (evEff ++ [Effect.commit]) :=
  ⟨rfl, C4_commit_structure
    (show findToken
        (SyncState.mk [⟨1, "at", some "rt", "Bearer", 1000⟩] [] []).tokens 1
      = some ⟨1, "at", some "rt", "Bearer", 1000⟩ from rfl)
    ⟨"b", "s"⟩ [] ⟨"n", 5⟩⟩

/-- C8: for a registered trainer, `/sync <n>` with an integer argument
sets the sync interval to `max n 1` and enables auto-sync; `/sync off`
(also `disable`, `stop`) disables auto-sync leaving the interval — and
every other field — unchanged. -/
theorem C8_sync_command (t : Trainer) (n : Int) (arg : String)
    (hn : pyInt arg = some n)
    (h1 : lowerStr arg ≠ "off") (h2 : lowerStr arg ≠ "disable")
    (h3 : lowerStr arg ≠ "stop") :
    handleSyncArg t arg
      = { t with sync_interval_minutes := max n 1, sync_enabled := true } ∧
    ∀ offArg ∈ (["off", "disable", "stop"] : List String),
      handleSyncArg t offArg = { t with sync_enabled := false } := by
  constructor
  · unfold handleSyncArg
    rw [if_neg (by push_neg; exact ⟨h1, h2, h3⟩), hn]
  · intro offArg hmem
    fin_cases hmem <;>
      · unfold handleSyncArg
        rw [if_pos (by decide)]

/-- Witness for C8 with the literal argument "5". -/
theorem C8_sync_command_witness :
    (pyInt "5" = some (5 : Int) ∧ lowerStr "5" ≠ "off" ∧
     lowerStr "5" ≠ "disable" ∧ lowerStr "5" ≠ "stop") ∧
    (handleSyncArg ⟨1, none, 7, false, 60, none⟩ "5"
        = { Trainer.mk 1 none 7 false 60 none with
            sync_interval_minutes := max 5 1
            sync_enabled := true } ∧
     ∀ offArg ∈ (["off", "disable", "stop"] : List String),
       handleSyncArg ⟨1, none, 7, false, 60, none⟩ offArg
         = { Trainer.mk 1 none 7 false 60 none with sync_enabled := false }) :=
  ⟨⟨by decide, by decide, by decide, by decide⟩,
   C8_sync_command ⟨1, none, 7, false, 60, none⟩ 5 "5" (by decide)
     (by decide) (by decide) (by decide)⟩

/-- C10: with an empty configured bot token, `send_telegram_message` makes
no outbound call at all, and a sync run over a matched, in-window,
not-yet-notified event still sets the stored session's `notified_at` to
`now` — permanently suppressing the reminder although nothing was sent. -/
theorem C10_empty_token_marks_notified {S : Settings}
    (hbot : S.telegram_bot_token = "")
    {st : SyncState} {tid : Nat} {token : OAuthToken} {now : Time}
    (htok : findToken st.tokens tid = some token)
    {e : GEvent} {sd ed : Time} {c : Client}
    (hs : e.startDateTime = some sd) (he : e.endDateTime = some ed)
    (hm : matchClient
        (buildClientMap (st.clients.filter (fun c2 => c2.trainer_id == tid)))
        (e.summary.getD "Тренировка") = some c)
    (hstored : storedNotified st.sessions e.id = none)
    (hwin : now ≤ sd ∧ sd ≤ now + 24 * 3600)
    (resp : RefreshResponse) :
    (∀ cid txt, send_telegram_message "" cid txt = []) ∧
    sendCount (sync_calendar_for_trainer S tid st now [e] resp).2.2 = 0 ∧
    ∃ s2, findSession
        (sync_calendar_for_trainer S tid st now [e] resp).2.1.sessions e.id
        = some s2 ∧ s2.notified_at = some now := by
  refine ⟨fun _ _ => rfl, ?_, ?_⟩
  · rw [sync_sendCount_eq htok, syncEvents_single,
      processEvent_notify S tid now hs he hm hstored hwin]
    simp [hbot, send_telegram_message_empty, sendCount_nil, sendCount]
  · rw [sync_sessions_eq_of_token htok, syncEvents_single,
      processEvent_notify S tid now hs he hm hstored hwin]
    exact ⟨_, findSession_storeSession_same (by
      simpa using
        upsertRecord_calendar_event_id (fun _ h => findSession_id h)), rfl⟩

/-- Witness for C10: empty bot token, client "anna", event "anna gym"
starting 100 seconds from now. -/
theorem C10_empty_token_marks_notified_witness :
    (Settings.mk "" "s").telegram_bot_token = "" ∧
    findToken [⟨1, "at", some "rt", "Bearer", 5000⟩] 1
      = some ⟨1, "at", some "rt", "Bearer", 5000⟩ ∧
    matchClient
        (buildClientMap
          (List.filter (fun c2 => c2.trainer_id == 1)
            [⟨1, 1, "anna", 7⟩]))
        ((GEvent.mk "e1" (some "anna gym") (some 100) (some 200)).summary.getD
          "Тренировка")
      = some ⟨1, 1, "anna", 7⟩ ∧
    ((∀ cid txt, send_telegram_message "" cid txt = []) ∧
     sendCount (sync_calendar_for_trainer ⟨"", "s"⟩ 1
         ⟨[⟨1, "at", some "rt", "Bearer", 5000⟩], [⟨1, 1, "anna", 7⟩], []⟩
         0 [⟨"e1", some "anna gym", some 100, some 200⟩] ⟨"n", 5⟩).2.2 = 0 ∧
     ∃ s2, findSession
         (sync_calendar_for_trainer ⟨"", "s"⟩ 1
           ⟨[⟨1, "at", some "rt", "Bearer", 5000⟩], [⟨1, 1, "anna", 7⟩], []⟩
           0 [⟨"e1", some "anna gym", some 100, some 200⟩]
           ⟨"n", 5⟩).2.1.sessions "e1"
         = some s2 ∧ s2.notified_at = some 0) :=
  ⟨rfl, rfl, by decide,
   @C10_empty_token_marks_notified ⟨"", "s"⟩ rfl
     ⟨[⟨1, "at", some "rt", "Bearer", 5000⟩], [⟨1, 1, "anna", 7⟩], []⟩ 1
     ⟨1, "at", some "rt", "Bearer", 5000⟩ 0 rfl
     ⟨"e1", some "anna gym", some 100, some 200⟩ 100 200
     ⟨1, 1, "anna", 7⟩ rfl rfl (by decide) rfl
     ⟨by decide, by decide⟩ ⟨"n", 5⟩⟩

/-- C2: the sync upsert is keyed by `calendar_event_id`: a store holding
at most one session per event id still does after a sync run, and
re-running the sync with the same event list updates the stored sessions
in place — the second run creates no additional session row. -/
theorem C2_upsert_idempotent {st : SyncState} {tid : Nat}
    (hinv : ∀ eid, countSessions st.sessions eid ≤ 1)
    (S : Settings) (now now2 : Time) (evs : List GEvent)
    (resp resp2 : RefreshResponse) :
    (∀ eid, countSessions
        (sync_calendar_for_trainer S tid st now evs resp).2.1.sessions eid
      ≤ 1) ∧
    (sync_calendar_for_trainer S tid
        (sync_calendar_for_trainer S tid st now evs resp).2.1 now2 evs
        resp2).2.1.sessions.length
      = (sync_calendar_for_trainer S tid st now evs resp).2.1.sessions.length
      := by
  cases htok : findToken st.tokens tid with
  | none =>
    constructor
    · intro eid
      rw [sync_calendar_no_token htok]
      exact hinv eid
    · rw [sync_calendar_no_token htok]
      rw [show ((SyncOutcome.httpError 400 "Trainer has no Google token",
          st, ([] : List Effect)).2.1) = st from rfl]
      rw [sync_calendar_no_token htok]
  | some token =>
    have hsess := sync_sessions_eq_of_token htok S now evs resp
    constructor
    · intro eid
      rw [hsess]
      exact syncEvents_count_le_one S tid _ now evs st.sessions eid
        (hinv eid)
    · obtain ⟨token2, htok2⟩ := sync_token_present htok S now evs resp
      rw [sync_sessions_eq_of_token htok2 S now2 evs resp2]
      refine syncEvents_length_of_present S tid _ now2 evs _ ?_
      intro ev hmem hsne hene
      rw [hsess]
      exact syncEvents_processed_present S tid _ now evs st.sessions ev
        hmem hsne hene

/-- Witness for C2: a state holding a token and one stored session, synced
twice over the same single event. -/
theorem C2_upsert_idempotent_witness :
    (∀ eid, countSessions
        ([⟨1, none, "e1", "old", 0, 10, none⟩] : List TrainingSession) eid
      ≤ 1) ∧
    ((∀ eid, countSessions
        (sync_calendar_for_trainer ⟨"b", "s"⟩ 1
          ⟨[⟨1, "at", some "rt", "Bearer", 5000⟩], [],
           [⟨1, none, "e1", "old", 0, 10, none⟩]⟩ 0
          [⟨"e1", some "x", some 100, some 200⟩]
          ⟨"n", 5⟩).2.1.sessions eid ≤ 1) ∧
     (sync_calendar_for_trainer ⟨"b", "s"⟩ 1
        (sync_calendar_for_trainer ⟨"b", "s"⟩ 1
          ⟨[⟨1, "at", some "rt", "Bearer", 5000⟩], [],
           [⟨1, none, "e1", "old", 0, 10, none⟩]⟩ 0
          [⟨"e1", some "x", some 100, some 200⟩] ⟨"n", 5⟩).2.1 50
        [⟨"e1", some "x", some 100, some 200⟩] ⟨"n2", 5⟩).2.1.sessions.length
      = (sync_calendar_for_trainer ⟨"b", "s"⟩ 1
          ⟨[⟨1, "at", some "rt", "Bearer", 5000⟩], [],
           [⟨1, none, "e1", "old", 0, 10, none⟩]⟩ 0
          [⟨"e1", some "x", some 100, some 200⟩]
          ⟨"n", 5⟩).2.1.sessions.length) := by
  have hinv : ∀ eid, countSessions
      ([⟨1, none, "e1", "old", 0, 10, none⟩] : List TrainingSession) eid
        ≤ 1 := by
    intro eid
    rw [countSessions_cons]
    rw [countSessions_nil]
    split <;> omega
  exact ⟨hinv,
    @C2_upsert_idempotent
      ⟨[⟨1, "at", some "rt", "Bearer", 5000⟩], [],
       [⟨1, none, "e1", "old", 0, 10, none⟩]⟩ 1
      hinv ⟨"b", "s"⟩ 0 50 [⟨"e1", some "x", some 100, some 200⟩]
      ⟨"n", 5⟩ ⟨"n2", 5⟩⟩

/-- C3 counterexample: upserting an already-stored session from an event
matching no client name keeps the previously stored client (`some 5`)
instead of leaving the session's client unset. -/
theorem C3_counterexample :
    matchClient []
      ((GEvent.mk "e1" (some "no match here") (some 100)
          (some 200)).summary.getD "Тренировка") = none ∧
    Option.map TrainingSession.client_id
        (findSession (processEvent ⟨"b", "s"⟩ 1 [] 0
          [⟨1, some 5, "e1", "old", 0, 10, none⟩]
          ⟨"e1", some "no match here", some 100, some 200⟩).1 "e1")
      = some (some 5) := by
  constructor
  · rfl
  · decide

/-- C3 (amended): for every fetched event with start and end datetimes, on
a lookup map with nonempty keys the code's matcher picks exactly the first
client (in map iteration order) whose lowercased name is a substring of
the lowercased summary; upserting an already-stored session overwrites
its summary and time range, but overwrites its matched client only when a
client matched — an event matching no client name leaves an existing
session's stored client unchanged, while a newly created session gets the
matched client or, with no match, no client. -/
theorem C3_match_and_upsert {m : List (String × Client)} {summary : String}
    (hkeys : ∀ p ∈ m, p.1 ≠ "")
    (S : Settings) (tid : Nat) (now : Time)
    {ev : GEvent} {sd ed : Time} (sessions : List TrainingSession)
    (hs : ev.startDateTime = some sd) (he : ev.endDateTime = some ed) :
    matchClient m summary = specFirstMatch m summary ∧
    (∀ s, findSession sessions ev.id = some s →
      ∃ s2, findSession (processEvent S tid m now sessions ev).1 ev.id
          = some s2 ∧
        s2.summary = ev.summary.getD "Тренировка" ∧
        s2.start_time = sd ∧ s2.end_time = ed ∧
        s2.client_id
          = (match matchClient m (ev.summary.getD "Тренировка") with
             | some c => some c.id
             | none => s.client_id)) ∧
    (findSession sessions ev.id = none →
      ∃ s2, findSession (processEvent S tid m now sessions ev).1 ev.id
          = some s2 ∧
        s2.client_id
          = Option.map Client.id
              (matchClient m (ev.summary.getD "Тренировка"))) := by
  have hid : ∀ s', findSession sessions ev.id = some s' →
      s'.calendar_event_id = ev.id := fun _ h => findSession_id h
  refine ⟨?_, ?_, ?_⟩
  · induction m with
    | nil => rfl
    | cons p rest ih =>
      obtain ⟨name, c⟩ := p
      have hne : name ≠ "" := hkeys (name, c) (by simp)
      simp only [matchClient, specFirstMatch]
      by_cases hb : strIn name (lowerStr summary) = true
      · rw [if_pos (by simp [hne, hb]), if_pos hb]
      · rw [if_neg (by simp [hb]), if_neg (by simp [hb])]
        exact ih (fun p hp => hkeys p (List.mem_cons_of_mem _ hp))
  · intro s hf
    rw [processEvent_eq_of_some hs he]
    cases hm2 : matchClient m (ev.summary.getD "Тренировка") with
    | none =>
      refine ⟨_, findSession_storeSession_same
        (upsertRecord_calendar_event_id hid), ?_, ?_, ?_, ?_⟩
      all_goals simp [upsertRecord, hf]
    | some c =>
      dsimp only
      split
      · refine ⟨_, findSession_storeSession_same (by
          simpa using upsertRecord_calendar_event_id hid), ?_, ?_, ?_, ?_⟩
        all_goals simp [upsertRecord, hf]
      · refine ⟨_, findSession_storeSession_same
          (upsertRecord_calendar_event_id hid), ?_, ?_, ?_, ?_⟩
        all_goals simp [upsertRecord, hf]
  · intro hf
    rw [processEvent_eq_of_some hs he]
    cases hm2 : matchClient m (ev.summary.getD "Тренировка") with
    | none =>
      refine ⟨_, findSession_storeSession_same
        (upsertRecord_calendar_event_id hid), ?_⟩
      simp [upsertRecord, hf]
    | some c =>
      dsimp only
      split
      · refine ⟨_, findSession_storeSession_same (by
          simpa using upsertRecord_calendar_event_id hid), ?_⟩
        simp [upsertRecord, hf]
      · refine ⟨_, findSession_storeSession_same
          (upsertRecord_calendar_event_id hid), ?_⟩
        simp [upsertRecord, hf]

/-- Witness for the amended C3: map with the single client "anna", an
event whose summary matches, over a store holding a session for it. -/
theorem C3_match_and_upsert_witness :
    (∀ p ∈ ([("anna", Client.mk 1 1 "Anna" 7)] : List (String × Client)),
      p.1 ≠ "") ∧
    (matchClient [("anna", Client.mk 1 1 "Anna" 7)] "anna gym"
        = specFirstMatch [("anna", Client.mk 1 1 "Anna" 7)] "anna gym" ∧
     (∀ s, findSession
          ([⟨1, none, "e1", "old", 0, 10, none⟩] : List TrainingSession)
          (GEvent.mk "e1" (some "anna gym") (some 100) (some 200)).id
        = some s →
       ∃ s2, findSession (processEvent ⟨"b", "s"⟩ 1
             [("anna", Client.mk 1 1 "Anna" 7)] 0
             [⟨1, none, "e1", "old", 0, 10, none⟩]
             ⟨"e1", some "anna gym", some 100, some 200⟩).1
             (GEvent.mk "e1" (some "anna gym") (some 100) (some 200)).id
           = some s2 ∧
         s2.summary = (GEvent.mk "e1" (some "anna gym") (some 100)
             (some 200)).summary.getD "Тренировка" ∧
         s2.start_time = 100 ∧ s2.end_time = 200 ∧
         s2.client_id
           = (match matchClient [("anna", Client.mk 1 1 "Anna" 7)]
                ((GEvent.mk "e1" (some "anna gym") (some 100)
                    (some 200)).summary.getD "Тренировка") with
              | some c => some c.id
              | none => s.client_id)) ∧
     (findSession
          ([⟨1, none, "e1", "old", 0, 10, none⟩] : List TrainingSession)
          (GEvent.mk "e1" (some "anna gym") (some 100) (some 200)).id
        = none →
       ∃ s2, findSession (processEvent ⟨"b", "s"⟩ 1
             [("anna", Client.mk 1 1 "Anna" 7)] 0
             [⟨1, none, "e1", "old", 0, 10, none⟩]
             ⟨"e1", some "anna gym", some 100, some 200⟩).1
             (GEvent.mk "e1" (some "anna gym") (some 100) (some 200)).id
           = some s2 ∧
         s2.client_id
           = Option.map Client.id
               (matchClient [("anna", Client.mk 1 1 "Anna" 7)]
                 ((GEvent.mk "e1" (some "anna gym") (some 100)
                     (some 200)).summary.getD "Тренировка")))) :=
  ⟨by decide,
   C3_match_and_upsert (by decide) ⟨"b", "s"⟩ 1 0
     [⟨1, none, "e1", "old", 0, 10, none⟩] rfl rfl⟩

/-- C1: a stored session's `notified_at` is only ever changed from `none`
to `some now`, and only when a client matched the event and the event's
start lies within `[now, now + 24h]` — once set it is never cleared or
overwritten; consequently two sync runs over the same single unchanged
event send at most one notification in total (the second run sends none
when the first already notified). -/
theorem C1_notified_at_most_once {st : SyncState} {tid : Nat}
    {token : OAuthToken}
    (htok : findToken st.tokens tid = some token)
    (S : Settings) (now now2 : Time) (e : GEvent)
    (resp resp2 : RefreshResponse) :
    (∀ (m : List (String × Client)) (sessions : List TrainingSession)
       (ev : GEvent) (s2 : TrainingSession),
      findSession (processEvent S tid m now sessions ev).1 ev.id = some s2 →
      s2.notified_at ≠ storedNotified sessions ev.id →
      storedNotified sessions ev.id = none ∧
      s2.notified_at = some now ∧
      (matchClient m (ev.summary.getD "Тренировка")).isSome = true ∧
      ∃ sd, ev.startDateTime = some sd ∧ now ≤ sd ∧
        sd ≤ now + 24 * 3600) ∧
    sendCount (sync_calendar_for_trainer S tid st now [e] resp).2.2 +
      sendCount (sync_calendar_for_trainer S tid
        (sync_calendar_for_trainer S tid st now [e] resp).2.1 now2 [e]
        resp2).2.2
      ≤ 1 := by
  constructor
  · intro m sessions ev s2 hf2 hchange
    exact processEvent_notified_only_when S tid m now hf2 hchange
  · have h1 : sendCount
        (sync_calendar_for_trainer S tid st now [e] resp).2.2
        = sendCount (processEvent S tid
            (buildClientMap
              (st.clients.filter (fun c => c.trainer_id == tid)))
            now st.sessions e).2 := by
      rw [sync_sendCount_eq htok S now [e] resp, syncEvents_single]
    have hsess1 :
        (sync_calendar_for_trainer S tid st now [e] resp).2.1.sessions
        = (processEvent S tid
            (buildClientMap
              (st.clients.filter (fun c => c.trainer_id == tid)))
            now st.sessions e).1 := by
      rw [sync_sessions_eq_of_token htok S now [e] resp, syncEvents_single]
    have hcl1 :
        (sync_calendar_for_trainer S tid st now [e] resp).2.1.clients
        = st.clients := sync_clients_eq S tid st now [e] resp
    obtain ⟨token2, htok2⟩ := sync_token_present htok S now [e] resp
    have h2 : sendCount
        (sync_calendar_for_trainer S tid
          (sync_calendar_for_trainer S tid st now [e] resp).2.1 now2 [e]
          resp2).2.2
        = sendCount (processEvent S tid
            (buildClientMap
              ((sync_calendar_for_trainer S tid st now
                  [e] resp).2.1.clients.filter
                (fun c => c.trainer_id == tid)))
            now2
            (sync_calendar_for_trainer S tid st now [e] resp).2.1.sessions
            e).2 := by
      rw [sync_sendCount_eq htok2 S now2 [e] resp2, syncEvents_single]
    rw [h1, h2, hcl1, hsess1]
    by_cases hne : (processEvent S tid
        (buildClientMap (st.clients.filter (fun c => c.trainer_id == tid)))
        now st.sessions e).2 = []
    · rw [hne, sendCount_nil]
      have := processEvent_sendCount_le_one S tid
        (buildClientMap (st.clients.filter (fun c => c.trainer_id == tid)))
        now2
        (processEvent S tid
          (buildClientMap (st.clients.filter (fun c => c.trainer_id == tid)))
          now st.sessions e).1 e
      omega
    · obtain ⟨s2, hs2, hnot⟩ :=
        processEvent_send_implies_notified S tid _ now hne
      obtain ⟨heff, -⟩ := processEvent_already_notified hs2 hnot S tid
        (buildClientMap (st.clients.filter (fun c => c.trainer_id == tid)))
        now2
      rw [heff, sendCount_nil]
      have := processEvent_sendCount_le_one S tid
        (buildClientMap (st.clients.filter (fun c => c.trainer_id == tid)))
        now st.sessions e
      omega

/-- Witness for C1: two runs over the matched in-window event "anna gym";
the hypothesis (a stored token) is discharged at a concrete state. -/
theorem C1_notified_at_most_once_witness :
    findToken [⟨1, "at", some "rt", "Bearer", 5000⟩] 1
      = some ⟨1, "at", some "rt", "Bearer", 5000⟩ ∧
    sendCount (sync_calendar_for_trainer ⟨"bot", "s"⟩ 1
        ⟨[⟨1, "at", some "rt", "Bearer", 5000⟩], [⟨1, 1, "anna", 7⟩], []⟩
        0 [⟨"e1", some "anna gym", some 100, some 200⟩] ⟨"n", 5⟩).2.2 +
      sendCount (sync_calendar_for_trainer ⟨"bot", "s"⟩ 1
        (sync_calendar_for_trainer ⟨"bot", "s"⟩ 1
          ⟨[⟨1, "at", some "rt", "Bearer", 5000⟩], [⟨1, 1, "anna", 7⟩], []⟩
          0 [⟨"e1", some "anna gym", some 100, some 200⟩] ⟨"n", 5⟩).2.1
        50 [⟨"e1", some "anna gym", some 100, some 200⟩] ⟨"n2", 5⟩).2.2
      ≤ 1 :=
  ⟨rfl,
   (C1_notified_at_most_once
     (show findToken
         (SyncState.mk [⟨1, "at", some "rt", "Bearer", 5000⟩]
           [⟨1, 1, "anna", 7⟩] []).tokens 1
       = some ⟨1, "at", some "rt", "Bearer", 5000⟩ from rfl)
     ⟨"bot", "s"⟩ 0 50 ⟨"e1", some "anna gym", some 100, some 200⟩
     ⟨"n", 5⟩ ⟨"n2", 5⟩).2⟩

end CozyGym
